import Mathlib

/-!
Shallow embedding of the financial-metrics dashboard:
backend dataset normalizer (`parseData`) and `/api/...` handlers
(backend source `src/unnamed/part_000`), and the frontend retry
wrapper and chart scaling (`src/Frontend/src/App.tsx`).

JS strings are modelled as lists of UTF-16 code points (`Str`), JS
numbers as exact rationals (`Rat`), and JS string case conversion as
the ASCII A-Z mapping the data actually exercises.  The backend's
`parseData` reads a fixed embedded dataset; here it is parametrised
by that raw dataset so properties quantify over all inputs.
-/

namespace Dashboard

/-- A JS string: its sequence of UTF-16 code points. -/
abbrev Str : Type := List Nat

/-- Code points of a Lean string literal, for writing concrete JS strings. -/
def str (s : String) : Str := s.data.map Char.toNat

/-- JS `String.prototype.toLowerCase` on one code point (ASCII range; the
letters occurring in this repository's data are ASCII). -/
def lowerChar (c : Nat) : Nat := if 65 ≤ c ∧ c ≤ 90 then c + 32 else c

/-- JS `toLowerCase` over a whole string. -/
def toLower (s : Str) : Str := s.map lowerChar

/-- The code points JS `String.prototype.trim` strips (WhiteSpace and
LineTerminator productions). -/
def wsCodes : List Nat :=
  [9, 10, 11, 12, 13, 32, 160, 0x1680,
   0x2000, 0x2001, 0x2002, 0x2003, 0x2004, 0x2005, 0x2006, 0x2007,
   0x2008, 0x2009, 0x200A, 0x2028, 0x2029, 0x202F, 0x205F, 0x3000, 0xFEFF]

/-- Whitespace test used by `trim` and by `parseInt`'s leading-space skip. -/
def isWS (c : Nat) : Bool := decide (c ∈ wsCodes)

/-- JS `String.prototype.trim`: strip leading and trailing whitespace. -/
def trim (s : Str) : Str :=
  ((s.dropWhile isWS).reverse.dropWhile isWS).reverse

/-- Decimal digit test for `parseInt(_, 10)`. -/
def isDigit (c : Nat) : Bool := decide (48 ≤ c ∧ c ≤ 57)

/-- Value of a string of decimal digits. -/
def digitsToNat (ds : List Nat) : Nat := ds.foldl (fun acc d => acc * 10 + (d - 48)) 0

/-- JS `parseInt(s, 10)`: skip leading whitespace, optional sign, read the
maximal run of leading decimal digits, `NaN` (here `none`) when that run is
empty; trailing garbage is ignored. -/
def jsParseInt (s : Str) : Option Int :=
  let t := (s : List Nat).dropWhile isWS
  match t with
  | 43 :: rest =>
    let ds := rest.takeWhile isDigit
    if ds = [] then none else some (digitsToNat ds : Int)
  | 45 :: rest =>
    let ds := rest.takeWhile isDigit
    if ds = [] then none else some (-(digitsToNat ds : Int))
  | rest =>
    let ds := rest.takeWhile isDigit
    if ds = [] then none else some (digitsToNat ds : Int)

/-- A JSON value sitting under a year key: a JS number (`typeof v ===
'number'`, modelled exactly as a rational) or anything else. -/
inductive JVal where
  | num (q : Rat)
  | other
deriving DecidableEq

/-- The JSON value sitting under a metric key of `Financials`: either a
proper object (`typeof years === 'object'` and truthy), as a key-ordered
association list, or anything else (skipped by the normalizer). -/
inductive MetricEntry where
  | obj (years : List (Str × JVal))
  | nonObj
deriving DecidableEq

/-- One element of the raw dataset array.  Missing `Ticker` /
`Company name` fields surface as `''` through the source's `|| ''`
defaults, so both are plain strings here; a missing `Financials` is `[]`
through `|| {}`. -/
structure RawRecord where
  ticker : Str
  name : Str
  financials : List (Str × MetricEntry)
deriving DecidableEq

/-- One flattened record pushed by `parseData` (`records.push({...})`). -/
structure Obs where
  company : Str
  ticker : Str
  field : Str
  year : Int
  value : Rat
deriving DecidableEq

/-- `Set.prototype.add` on a JS `Set` realised as its insertion-ordered
element list. -/
def addSet (s : List Str) (x : Str) : List Str :=
  if x ∈ s then s else s ++ [x]

/-- The inner `for (const [yearStr, value] of Object.entries(years))` loop
of `parseData`: `continue` on a non-number value, `continue` when
`parseInt(yearStr, 10)` is `NaN`, else push one record. -/
def yearsObs (companyName ticker metricName : Str) : List (Str × JVal) → List Obs
  | [] => []
  | (yearStr, v) :: rest =>
    match v with
    | JVal.other => yearsObs companyName ticker metricName rest
    | JVal.num q =>
      match jsParseInt yearStr with
      | none => yearsObs companyName ticker metricName rest
      | some y =>
        { company := companyName, ticker := ticker,
          field := toLower metricName, year := y, value := q } ::
          yearsObs companyName ticker metricName rest

/-- Mutable state of `parseData`'s loops: the `companies` and `metrics`
sets (insertion-ordered) and the `records` array. -/
structure NormState where
  companies : List Str
  metrics : List Str
  records : List Obs
deriving DecidableEq

/-- The `for (const [metric, years] of Object.entries(financials))` loop:
`continue` unless `years` is a proper object, else add the raw metric name
to the `metrics` set and push the records of every valid year entry. -/
def processFinancials (companyName ticker : Str) :
    List (Str × MetricEntry) → NormState → NormState
  | [], st => st
  | (metricName, entry) :: rest, st =>
    match entry with
    | MetricEntry.nonObj => processFinancials companyName ticker rest st
    | MetricEntry.obj years =>
      processFinancials companyName ticker rest
        { st with
          metrics := addSet st.metrics metricName,
          records := st.records ++ yearsObs companyName ticker metricName years }

/-- The outer `for (const companyData of rawData)` loop: `continue` when
ticker or company name is falsy (empty), else add the company and process
its financials. -/
def processRecords : List RawRecord → NormState → NormState
  | [], st => st
  | r :: rest, st =>
    if r.ticker = [] ∨ r.name = [] then processRecords rest st
    else
      processRecords rest
        (processFinancials r.name r.ticker r.financials
          { st with companies := addSet st.companies r.name })

/-- Result shape of `parseData`: `{ records, companies, metrics }`. -/
structure ParsedData where
  records : List Obs
  companies : List Str
  metrics : List Str
deriving DecidableEq

/-- `parseData` from the backend, parametrised by the raw dataset that the
source reads from its embedded `companyData`.  `Array.from(set).sort()` is
the default JS sort: lexicographic by code points, modelled by a stable
insertion sort under the list order. -/
def parseData (raw : List RawRecord) : ParsedData :=
  let st := processRecords raw { companies := [], metrics := [], records := [] }
  { records := st.records,
    companies := st.companies.insertionSort (· ≤ ·),
    metrics := st.metrics.insertionSort (· ≤ ·) }

/-- The raw input of the spec's scenario:
`[{Ticker:"ACME", "Company name":"Acme Co", Financials:{Revenue:{"2020":100, "2021":150}}}]`. -/
def rawAcme : List RawRecord :=
  [{ ticker := str "ACME", name := str "Acme Co",
     financials :=
       [(str "Revenue",
         MetricEntry.obj [(str "2020", JVal.num 100), (str "2021", JVal.num 150)])] }]

/-- A `(year, value)` point of the `/api/data` response. -/
structure Pt where
  year : Int
  value : Rat
deriving DecidableEq

/-- Order used by `points.sort((a, b) => a.year - b.year)`: the comparator
is non-positive exactly when `a.year ≤ b.year`. -/
def ptLe (p q : Pt) : Prop := p.year ≤ q.year

instance : DecidableRel ptLe := fun p q => inferInstanceAs (Decidable (p.year ≤ q.year))
instance : IsTotal Pt ptLe := ⟨fun p q => Int.le_total p.year q.year⟩
instance : IsTrans Pt ptLe := ⟨fun _ _ _ => Int.le_trans⟩

/-- The JSON bodies `/api/data` can answer with, together with their HTTP
status: the 400 bad-request body (echoing the received strings), the 404
body (`success:false`, `found:false`, echoing the normalized strings), and
the 200 success body. -/
inductive DataResult where
  | badRequest (company metric : Str)
  | notFound (company metric : Str) (success found : Bool)
  | ok (name ticker metric : Str) (points : List Pt) (count : Nat) (success found : Bool)
deriving DecidableEq

/-- The filter predicate of the handler:
`r.company.toLowerCase() === company.toLowerCase() && r.field.toLowerCase() === metric.toLowerCase()`. -/
def matchesQuery (company metric : Str) (r : Obs) : Bool :=
  (toLower r.company == toLower company) && (toLower r.field == toLower metric)

/-- The `/api/data` handler body, parametrised by the `records` that
`parseData()` produced and the two raw query strings. -/
def apiData (records : List Obs) (companyQ metricQ : Str) : DataResult :=
  let company := trim companyQ
  let metric := toLower (trim metricQ)
  if company = [] ∨ metric = [] then
    DataResult.badRequest company metric
  else
    let companyRecords := records.filter (matchesQuery company metric)
    match companyRecords with
    | [] => DataResult.notFound company metric false false
    | first :: _ =>
      let points :=
        (companyRecords.map (fun r => { year := r.year, value := r.value : Pt })).insertionSort ptLe
      DataResult.ok company first.ticker metric points points.length true
        (decide (0 < points.length))

/-- HTTP status code attached to each `DataResult` by the handler. -/
def statusOf : DataResult → Nat
  | DataResult.badRequest _ _ => 400
  | DataResult.notFound _ _ _ _ => 404
  | DataResult.ok _ _ _ _ _ _ _ => 200

/-- Outcome kind, forgetting all payload: 0 = bad request, 1 = not found,
2 = success. -/
def kindOf : DataResult → Nat
  | DataResult.badRequest _ _ => 0
  | DataResult.notFound _ _ _ _ => 1
  | DataResult.ok _ _ _ _ _ _ _ => 2

/-- Ticker of a successful response. -/
def tickerOf : DataResult → Option Str
  | DataResult.ok _ t _ _ _ _ _ => some t
  | _ => none

/-- Points of a successful response. -/
def pointsOf : DataResult → Option (List Pt)
  | DataResult.ok _ _ _ pts _ _ _ => some pts
  | _ => none

/-! Frontend fetch client (`src/Frontend/src/App.tsx`).  An attempt oracle
`att : Nat → Except Str α` gives the outcome of the attempt made with a
given `retryCount` (an error is the `message` of the JS `Error`); a run
returns the list of delays slept between attempts and the final outcome
delivered to the UI state (success payload, or the error string passed to
`setError`). -/

def MAX_RETRIES : Nat := 3

def RETRY_DELAY : Nat := 2000

/-- The retry loop of `fetchOptions` in the options-loading effect: on
failure with `retryCount < MAX_RETRIES - 1`, sleep
`RETRY_DELAY * (retryCount + 1)` and recurse; on the final failure set the
error to the message suffixed with a refresh suggestion. -/
def fetchOptionsRun (att : Nat → Except Str α) (retryCount : Nat) :
    List Nat × Except Str α :=
  match att retryCount with
  | Except.ok a => ([], Except.ok a)
  | Except.error e =>
    if h : retryCount < MAX_RETRIES - 1 then
      let rest := fetchOptionsRun att (retryCount + 1)
      (RETRY_DELAY * (retryCount + 1) :: rest.1, rest.2)
    else
      ([], Except.error (e ++ str " Please try refreshing the page."))
termination_by MAX_RETRIES - retryCount
decreasing_by simp only [MAX_RETRIES] at h ⊢; omega

/-- The retry loop of `fetchData`: same schedule, but the final failure
surfaces `e?.message || 'Failed to load data. Please try again.'` — the
raw message when non-empty, with no refresh suffix. -/
def fetchDataRun (att : Nat → Except Str α) (retryCount : Nat) :
    List Nat × Except Str α :=
  match att retryCount with
  | Except.ok a => ([], Except.ok a)
  | Except.error e =>
    if h : retryCount < MAX_RETRIES - 1 then
      let rest := fetchDataRun att (retryCount + 1)
      (RETRY_DELAY * (retryCount + 1) :: rest.1, rest.2)
    else
      ([], Except.error
        (if e = [] then str "Failed to load data. Please try again." else e))
termination_by MAX_RETRIES - retryCount
decreasing_by simp only [MAX_RETRIES] at h ⊢; omega

/-! Chart renderer `LineChart` (`src/Frontend/src/App.tsx`), exact-rational
model of its coordinate arithmetic. -/

def chartWidth : Rat := 800

def chartHeight : Rat := 420

def marginTop : Rat := 30

def marginRight : Rat := 30

def marginBottom : Rat := 40

def marginLeft : Rat := 70

/-- `Math.min(...years)` over a non-empty list (empty defaults to the head
argument being absent; the chart is only rendered with points present). -/
def minYear (pts : List Pt) : Int :=
  match pts.map Pt.year with
  | [] => 0
  | y :: ys => ys.foldl min y

/-- `Math.max(...years)`. -/
def maxYear (pts : List Pt) : Int :=
  match pts.map Pt.year with
  | [] => 0
  | y :: ys => ys.foldl max y

/-- `Math.min(...values)`. -/
def minVal (pts : List Pt) : Rat :=
  match pts.map Pt.value with
  | [] => 0
  | v :: vs => vs.foldl min v

/-- `Math.max(...values)`. -/
def maxVal (pts : List Pt) : Rat :=
  match pts.map Pt.value with
  | [] => 0
  | v :: vs => vs.foldl max v

/-- The guarded denominator `(maxYear - minYear || 1)`: JS `||` replaces a
zero range by 1. -/
def xDenom (pts : List Pt) : Int :=
  let d := maxYear pts - minYear pts
  if d = 0 then 1 else d

/-- The guarded denominator `(maxVal - minVal || 1)`. -/
def yDenom (pts : List Pt) : Rat :=
  let d := maxVal pts - minVal pts
  if d = 0 then 1 else d

/-- `xScale`: `margin.left + ((y - minYear) / (maxYear - minYear || 1)) * rw`
with `rw = width - margin.left - margin.right`. -/
def xScale (pts : List Pt) (y : Int) : Rat :=
  let rw := chartWidth - marginLeft - marginRight
  marginLeft + (((y - minYear pts : Int) : Rat) / ((xDenom pts : Int) : Rat)) * rw

/-- `yScale`: `margin.top + rh - ((v - minVal) / (maxVal - minVal || 1)) * rh`
with `rh = height - margin.top - margin.bottom`. -/
def yScale (pts : List Pt) (v : Rat) : Rat :=
  let rh := chartHeight - marginTop - marginBottom
  marginTop + rh - ((v - minVal pts) / yDenom pts) * rh

/-- The polyline commands of `pathD`: one scaled coordinate pair per point,
in the order given (`M` for the first, `L` after). -/
def pathCmds (pts : List Pt) : List (Rat × Rat) :=
  pts.map (fun p => (xScale pts p.year, yScale pts p.value))

/-- The circle markers: one per point, at the same scaled coordinates. -/
def markers (pts : List Pt) : List (Rat × Rat) :=
  pts.map (fun p => (xScale pts p.year, yScale pts p.value))

def yTicks : Nat := 5

/-- `yTickVals`: `Array.from({length: yTicks + 1}, (_, i) => minVal + (i * (maxVal - minVal)) / yTicks)`. -/
def yTickVals (pts : List Pt) : List Rat :=
  (List.range (yTicks + 1)).map
    (fun (i : Nat) =>
      minVal pts + (((i : Nat) : Rat) * (maxVal pts - minVal pts)) / ((yTicks : Nat) : Rat))

/-- `formatNumber`, reduced to the decimal-rendering-free content: the
scaled mantissa handed to `toFixed` and the suffix chosen by the
magnitude cascade (`toFixed`'s digit string itself is elided). -/
def formatNumber (n : Rat) : Rat × Str :=
  if |n| ≥ 1000000000 then (n / 1000000000, str "B")
  else if |n| ≥ 1000000 then (n / 1000000, str "M")
  else if |n| ≥ 1000 then (n / 1000, str "K")
  else (n, str "")

/-! Concrete inputs used by witnesses and counterexamples. -/

/-- The raw input `[{Ticker:"T", "Company name":"C", Financials:{}}]`:
a valid record whose financials contribute zero observations. -/
def rawNoFin : List RawRecord :=
  [{ ticker := str "T", name := str "C", financials := [] }]

/-- Scenario observations listed in descending year order, to exercise the
sort. -/
def recsOutOfOrder : List Obs :=
  [{ company := str "Acme Co", ticker := str "ACME", field := str "revenue",
     year := 2021, value := 150 },
   { company := str "Acme Co", ticker := str "ACME", field := str "revenue",
     year := 2020, value := 100 }]

/-- An attempt oracle that always fails with message `"boom"`. -/
def attBoom : Nat → Except Str Unit := fun _ => Except.error (str "boom")

/-- A two-point series exercising the chart's value ticks. -/
def ptsDemo : List Pt :=
  [{ year := 2020, value := 0 }, { year := 2021, value := 100 }]

/-! Declarative restatement of the normalizer, written from the spec's
description ("every (metric, year, value) triple with a numeric value and
integer-parsable year produces exactly one Observation; non-numeric values
and non-integer year keys are excluded"), to be compared with the
imperative `parseData` transcription. -/

/-- The at-most-one observation a single `(yearStr, value)` entry of a
metric's year mapping contributes, per the spec's triple rule. -/
def tripleObs (companyName ticker metricName : Str) (yv : Str × JVal) : Option Obs :=
  match yv.2, jsParseInt yv.1 with
  | JVal.num q, some y =>
    some { company := companyName, ticker := ticker,
           field := toLower metricName, year := y, value := q }
  | _, _ => none

/-- Observations contributed by one record's financials, per the spec:
metric entries that are not proper mappings contribute nothing, every
qualifying triple contributes exactly its one observation. -/
def finObs (companyName ticker : Str) (fin : List (Str × MetricEntry)) : List Obs :=
  fin.flatMap (fun me =>
    match me.2 with
    | MetricEntry.obj years => years.filterMap (tripleObs companyName ticker me.1)
    | MetricEntry.nonObj => [])

/-- The whole observation list per the spec: records with an empty ticker
or company name are excluded entirely. -/
def specObs (raw : List RawRecord) : List Obs :=
  raw.flatMap (fun r =>
    if r.ticker = [] ∨ r.name = [] then [] else finObs r.name r.ticker r.financials)

theorem yearsObs_eq_filterMap (n t m : Str) (ys : List (Str × JVal)) :
    yearsObs n t m ys = ys.filterMap (tripleObs n t m) := by
  induction ys with
  | nil => rfl
  | cons yv rest ih =>
    obtain ⟨yStr, v⟩ := yv
    cases v with
    | num q =>
      cases hp : jsParseInt yStr with
      | none => simp [yearsObs, List.filterMap_cons, tripleObs, hp, ih]
      | some y => simp [yearsObs, List.filterMap_cons, tripleObs, hp, ih]
    | other => simp [yearsObs, List.filterMap_cons, tripleObs, ih]

theorem processFinancials_records (n t : Str) (fin : List (Str × MetricEntry))
    (st : NormState) :
    (processFinancials n t fin st).records = st.records ++ finObs n t fin := by
  induction fin generalizing st with
  | nil => simp [processFinancials, finObs]
  | cons me rest ih =>
    obtain ⟨m, e⟩ := me
    cases e with
    | nonObj => simp [processFinancials, finObs, ih]
    | obj years =>
      simp [processFinancials, finObs, ih, yearsObs_eq_filterMap, List.append_assoc]

theorem processFinancials_companies (n t : Str) (fin : List (Str × MetricEntry))
    (st : NormState) :
    (processFinancials n t fin st).companies = st.companies := by
  induction fin generalizing st with
  | nil => rfl
  | cons me rest ih =>
    obtain ⟨m, e⟩ := me
    cases e with
    | nonObj => simp [processFinancials, ih]
    | obj years => simp [processFinancials, ih]

theorem processRecords_records (raw : List RawRecord) (st : NormState) :
    (processRecords raw st).records = st.records ++ specObs raw := by
  induction raw generalizing st with
  | nil => simp [processRecords, specObs]
  | cons r rest ih =>
    by_cases h : r.ticker = [] ∨ r.name = []
    · simp [processRecords, h, specObs, ih]
    · simp [processRecords, h, specObs, ih, processFinancials_records,
        List.append_assoc]

/-- C2.  In the normalizer's output, the flattened record list is exactly
the concatenation, over the raw records with non-empty ticker and company
name and over their metric entries that are proper mappings, of one
observation per `(metric, year, value)` triple whose value is a number and
whose year key `parseInt`s to an integer (`Option.some` under
`List.filterMap`), and no observation for every other triple
(`Option.none`); the normalizer is a total function, so no input raises an
error. -/
theorem parseData_records_eq_specObs (raw : List RawRecord) :
    (parseData raw).records = specObs raw := by
  simp [parseData, processRecords_records]

theorem mem_addSet {s : List Str} {x y : Str} :
    y ∈ addSet s x ↔ y ∈ s ∨ y = x := by
  unfold addSet
  split
  · rename_i hx
    constructor
    · exact Or.inl
    · rintro (h | rfl)
      · exact h
      · exact hx
  · simp [List.mem_append]

theorem addSet_nodup {s : List Str} {x : Str} (h : s.Nodup) : (addSet s x).Nodup := by
  unfold addSet
  split
  · exact h
  · rename_i hx
    simp [List.nodup_append, h, hx]

theorem processFinancials_metrics_nodup (n t : Str) (fin : List (Str × MetricEntry))
    (st : NormState) (h : st.metrics.Nodup) :
    (processFinancials n t fin st).metrics.Nodup := by
  induction fin generalizing st with
  | nil => exact h
  | cons me rest ih =>
    obtain ⟨m, e⟩ := me
    cases e with
    | nonObj => exact ih st h
    | obj years => exact ih _ (addSet_nodup h)

theorem processFinancials_metrics_mem (n t : Str) (fin : List (Str × MetricEntry))
    (st : NormState) (m : Str) (hm : m ∈ (processFinancials n t fin st).metrics) :
    m ∈ st.metrics ∨ ∃ ys, (m, MetricEntry.obj ys) ∈ fin := by
  induction fin generalizing st with
  | nil => exact Or.inl hm
  | cons me rest ih =>
    obtain ⟨mn, e⟩ := me
    cases e with
    | nonObj =>
      rcases ih st hm with h | ⟨ys, hys⟩
      · exact Or.inl h
      · exact Or.inr ⟨ys, List.mem_cons_of_mem _ hys⟩
    | obj years =>
      rcases ih _ hm with h | ⟨ys, hys⟩
      · rcases mem_addSet.mp h with h | rfl
        · exact Or.inl h
        · exact Or.inr ⟨years, List.mem_cons_self _ _⟩
      · exact Or.inr ⟨ys, List.mem_cons_of_mem _ hys⟩

theorem processRecords_companies_nodup (raw : List RawRecord) (st : NormState)
    (h : st.companies.Nodup) : (processRecords raw st).companies.Nodup := by
  induction raw generalizing st with
  | nil => exact h
  | cons r rest ih =>
    by_cases hg : r.ticker = [] ∨ r.name = []
    · simpa [processRecords, hg] using ih st h
    · simp only [processRecords, if_neg hg]
      apply ih
      rw [processFinancials_companies]
      exact addSet_nodup h

theorem processRecords_metrics_nodup (raw : List RawRecord) (st : NormState)
    (h : st.metrics.Nodup) : (processRecords raw st).metrics.Nodup := by
  induction raw generalizing st with
  | nil => exact h
  | cons r rest ih =>
    by_cases hg : r.ticker = [] ∨ r.name = []
    · simpa [processRecords, hg] using ih st h
    · simp only [processRecords, if_neg hg]
      exact ih _ (processFinancials_metrics_nodup _ _ _ _ h)

theorem processRecords_companies_mem (raw : List RawRecord) (st : NormState)
    (c : Str) (hc : c ∈ (processRecords raw st).companies) :
    c ∈ st.companies ∨
      ∃ r ∈ raw, r.ticker ≠ [] ∧ r.name ≠ [] ∧ r.name = c := by
  induction raw generalizing st with
  | nil => exact Or.inl hc
  | cons r rest ih =>
    by_cases hg : r.ticker = [] ∨ r.name = []
    · rw [processRecords, if_pos hg] at hc
      rcases ih st hc with h | ⟨r0, hr0, h0⟩
      · exact Or.inl h
      · exact Or.inr ⟨r0, List.mem_cons_of_mem _ hr0, h0⟩
    · rw [processRecords, if_neg hg] at hc
      push_neg at hg
      rcases ih _ hc with h | ⟨r0, hr0, h0⟩
      · rw [processFinancials_companies] at h
        rcases mem_addSet.mp h with h | rfl
        · exact Or.inl h
        · exact Or.inr ⟨r, List.mem_cons_self _ _, hg.1, hg.2, rfl⟩
      · exact Or.inr ⟨r0, List.mem_cons_of_mem _ hr0, h0⟩

theorem processRecords_metrics_mem (raw : List RawRecord) (st : NormState)
    (m : Str) (hm : m ∈ (processRecords raw st).metrics) :
    m ∈ st.metrics ∨
      ∃ r ∈ raw, r.ticker ≠ [] ∧ r.name ≠ [] ∧
        ∃ ys, (m, MetricEntry.obj ys) ∈ r.financials := by
  induction raw generalizing st with
  | nil => exact Or.inl hm
  | cons r rest ih =>
    by_cases hg : r.ticker = [] ∨ r.name = []
    · rw [processRecords, if_pos hg] at hm
      rcases ih st hm with h | ⟨r0, hr0, h0⟩
      · exact Or.inl h
      · exact Or.inr ⟨r0, List.mem_cons_of_mem _ hr0, h0⟩
    · rw [processRecords, if_neg hg] at hm
      push_neg at hg
      rcases ih _ hm with h | ⟨r0, hr0, h0⟩
      · rcases processFinancials_metrics_mem _ _ _ _ _ h with h | ⟨ys, hys⟩
        · exact Or.inl h
        · exact Or.inr ⟨r, List.mem_cons_self _ _, hg.1, hg.2, ys, hys⟩
      · exact Or.inr ⟨r0, List.mem_cons_of_mem _ hr0, h0⟩

/-- C3, counterexample to the claim as stated: for the input
`[{Ticker:"T", "Company name":"C", Financials:{}}]` the company list is
`["C"]` but the observation list is empty, so the company list is not
derived from (does not only contain names occurring in) the Observations. -/
theorem companies_not_from_observations :
    ¬ (∀ c ∈ (parseData rawNoFin).companies,
        ∃ o ∈ (parseData rawNoFin).records, o.company = c) := by
  decide

/-- C3, amended.  For every raw input, the company and metric lists are
deduplicated and sorted ascending in the default string order; they are
derived from the raw records that pass the ticker/company-name guard (the
company names of such records, and the metric names those records map to a
proper object), which can include names contributing zero observations. -/
theorem parseData_lists_sorted_nodup (raw : List RawRecord) :
    (parseData raw).companies.Sorted (· ≤ ·) ∧
    (parseData raw).companies.Nodup ∧
    (parseData raw).metrics.Sorted (· ≤ ·) ∧
    (parseData raw).metrics.Nodup ∧
    (∀ c ∈ (parseData raw).companies,
      ∃ r ∈ raw, r.ticker ≠ [] ∧ r.name ≠ [] ∧ r.name = c) ∧
    (∀ m ∈ (parseData raw).metrics,
      ∃ r ∈ raw, r.ticker ≠ [] ∧ r.name ≠ [] ∧
        ∃ ys, (m, MetricEntry.obj ys) ∈ r.financials) := by
  refine ⟨List.sorted_insertionSort _ _, ?_, List.sorted_insertionSort _ _, ?_, ?_, ?_⟩
  · exact (List.perm_insertionSort _ _).nodup_iff.mpr
      (processRecords_companies_nodup raw _ List.nodup_nil)
  · exact (List.perm_insertionSort _ _).nodup_iff.mpr
      (processRecords_metrics_nodup raw _ List.nodup_nil)
  · intro c hc
    rw [parseData] at hc
    rcases processRecords_companies_mem raw _ c ((List.mem_insertionSort _).mp hc) with
      h | h
    · exact absurd h (List.not_mem_nil c)
    · exact h
  · intro m hm
    rw [parseData] at hm
    rcases processRecords_metrics_mem raw _ m ((List.mem_insertionSort _).mp hm) with
      h | h
    · exact absurd h (List.not_mem_nil m)
    · exact h

/-- C3, witness: the amended statement applied to the scenario input. -/
theorem parseData_lists_sorted_nodup_witness :
    (parseData rawAcme).companies.Nodup ∧
    (∃ r ∈ rawAcme, r.ticker ≠ [] ∧ r.name ≠ [] ∧ r.name = str "Acme Co") :=
  ⟨(parseData_lists_sorted_nodup rawAcme).2.1,
   (parseData_lists_sorted_nodup rawAcme).2.2.2.2.1 (str "Acme Co") (by decide)⟩

theorem isWS_lowerChar (c : Nat) : isWS (lowerChar c) = isWS c := by
  unfold lowerChar
  split
  · rename_i h
    have h1 : isWS (c + 32) = false := by
      simp [isWS, wsCodes]
      omega
    have h2 : isWS c = false := by
      simp [isWS, wsCodes]
      omega
    rw [h1, h2]
  · rfl

theorem toLower_dropWhile (s : Str) :
    toLower (s.dropWhile isWS) = (toLower s).dropWhile isWS := by
  induction s with
  | nil => rfl
  | cons c cs ih =>
    simp only [toLower, List.map_cons, List.dropWhile_cons, isWS_lowerChar]
    split
    · simpa [toLower] using ih
    · rfl

theorem toLower_reverse (s : Str) : toLower s.reverse = (toLower s).reverse :=
  List.map_reverse _ _

theorem trim_toLower (s : Str) : toLower (trim s) = trim (toLower s) := by
  show toLower (((s.dropWhile isWS).reverse.dropWhile isWS).reverse) = _
  rw [toLower_reverse, toLower_dropWhile, toLower_reverse, toLower_dropWhile]
  rfl

theorem toLower_eq_nil_iff {s : Str} : toLower s = [] ↔ s = [] := by
  simp [toLower]

/-- C4.  Queries that differ only in letter-casing of the company and of
the metric produce the same outcome kind (bad request / not found /
success), the same ticker, and the same points. -/
theorem apiData_caseInsensitive (records : List Obs) (c1 m1 c2 m2 : Str)
    (hc : toLower c1 = toLower c2) (hm : toLower m1 = toLower m2) :
    kindOf (apiData records c1 m1) = kindOf (apiData records c2 m2) ∧
    tickerOf (apiData records c1 m1) = tickerOf (apiData records c2 m2) ∧
    pointsOf (apiData records c1 m1) = pointsOf (apiData records c2 m2) := by
  have htc : toLower (trim c1) = toLower (trim c2) := by
    rw [trim_toLower, hc, ← trim_toLower]
  have htm : toLower (trim m1) = toLower (trim m2) := by
    rw [trim_toLower, hm, ← trim_toLower]
  have hce : (trim c1 = []) ↔ (trim c2 = []) := by
    rw [← toLower_eq_nil_iff, htc, toLower_eq_nil_iff]
  have hiff : (trim c1 = [] ∨ toLower (trim m1) = []) ↔
      (trim c2 = [] ∨ toLower (trim m2) = []) := by
    rw [htm]
    exact or_congr hce Iff.rfl
  have hfilter : records.filter (matchesQuery (trim c1) (toLower (trim m1))) =
      records.filter (matchesQuery (trim c2) (toLower (trim m2))) := by
    apply List.filter_congr
    intro r _
    unfold matchesQuery
    rw [htc, htm]
  simp only [apiData]
  by_cases h1 : trim c1 = [] ∨ toLower (trim m1) = []
  · rw [if_pos h1, if_pos (hiff.mp h1)]
    exact ⟨rfl, rfl, rfl⟩
  · rw [if_neg h1, if_neg (fun h => h1 (hiff.mpr h)), hfilter, htm]
    cases records.filter (matchesQuery (trim c2) (toLower (trim m2))) with
    | nil => exact ⟨rfl, rfl, rfl⟩
    | cons first rest => exact ⟨rfl, rfl, rfl⟩

/-- C4, witness: querying the scenario data with two casings of
`"Acme Co"`/`"revenue"` yields the same kind, ticker and points. -/
theorem apiData_caseInsensitive_witness :
    kindOf (apiData (parseData rawAcme).records (str "ACME CO") (str "Revenue")) =
      kindOf (apiData (parseData rawAcme).records (str "acme co") (str "REVENUE")) ∧
    tickerOf (apiData (parseData rawAcme).records (str "ACME CO") (str "Revenue")) =
      tickerOf (apiData (parseData rawAcme).records (str "acme co") (str "REVENUE")) ∧
    pointsOf (apiData (parseData rawAcme).records (str "ACME CO") (str "Revenue")) =
      pointsOf (apiData (parseData rawAcme).records (str "acme co") (str "REVENUE")) :=
  apiData_caseInsensitive (parseData rawAcme).records
    (str "ACME CO") (str "Revenue") (str "acme co") (str "REVENUE")
    (by decide) (by decide)

/-- C5.  Whatever the order of the observations handed to the handler, the
points of a successful `/api/data` response are sorted ascending by year. -/
theorem apiData_points_sorted (records : List Obs) (c m : Str) (pts : List Pt)
    (h : pointsOf (apiData records c m) = some pts) :
    List.Sorted ptLe pts := by
  simp only [apiData] at h
  split at h
  · simp [pointsOf] at h
  · split at h
    · simp [pointsOf] at h
    · simp only [pointsOf, Option.some.injEq] at h
      rw [← h]
      exact List.sorted_insertionSort ptLe _

/-- C5, witness: a query over year-descending observations yields
year-ascending points. -/
theorem apiData_points_sorted_witness :
    List.Sorted ptLe [{ year := 2020, value := 100 }, { year := 2021, value := 150 }] :=
  apiData_points_sorted recsOutOfOrder (str "Acme Co") (str "revenue")
    [{ year := 2020, value := 100 }, { year := 2021, value := 150 }] (by decide)

/-- C6.  A query whose trimmed company and trimmed lower-cased metric are
non-empty and match no observation answers 404 with a body carrying
`success:false`, `found:false` and the normalized company and metric (the
trimmed company; the trimmed, lower-cased metric); no success payload is
produced. -/
theorem apiData_notFound (records : List Obs) (c m : Str)
    (hc : trim c ≠ []) (hm : toLower (trim m) ≠ [])
    (hnone : ∀ r ∈ records, matchesQuery (trim c) (toLower (trim m)) r = false) :
    apiData records c m =
      DataResult.notFound (trim c) (toLower (trim m)) false false ∧
    statusOf (apiData records c m) = 404 := by
  have hfil : records.filter (matchesQuery (trim c) (toLower (trim m))) = [] :=
    List.filter_eq_nil_iff.mpr (fun r hr => by simp [hnone r hr])
  have : apiData records c m =
      DataResult.notFound (trim c) (toLower (trim m)) false false := by
    simp only [apiData]
    rw [if_neg (by simp [hc, hm]), hfil]
  exact ⟨this, by rw [this]; rfl⟩

/-- C6, witness: the spec's scenario `/api/data?company=Unknown&metric=revenue`
against the scenario dataset. -/
theorem apiData_notFound_witness :
    apiData (parseData rawAcme).records (str "Unknown") (str "revenue") =
      DataResult.notFound (trim (str "Unknown")) (toLower (trim (str "revenue")))
        false false ∧
    statusOf (apiData (parseData rawAcme).records (str "Unknown") (str "revenue")) =
      404 :=
  apiData_notFound (parseData rawAcme).records (str "Unknown") (str "revenue")
    (by decide) (by decide) (by decide)

/-- C10.  A successful `/api/data` answer echoes, as `company.name`, the
caller's company query string merely trimmed (keeping the caller's
casing), and, as `metric`, the caller's metric string trimmed and
lower-cased — not the canonical names stored in the observations. -/
theorem apiData_echoes_query (records : List Obs) (c m : Str)
    (name ticker metric : Str) (pts : List Pt) (cnt : Nat) (s f : Bool)
    (h : apiData records c m = DataResult.ok name ticker metric pts cnt s f) :
    name = trim c ∧ metric = toLower (trim m) := by
  simp only [apiData] at h
  split at h
  · exact absurd h (by simp)
  · split at h
    · exact absurd h (by simp)
    · rw [DataResult.ok.injEq] at h
      exact ⟨h.1.symm, h.2.2.1.symm⟩

/-- C10, witness: an upper-cased, padded query against the scenario data
is echoed back trimmed with the caller's casing (`"ACME CO"`), not as the
stored `"Acme Co"`. -/
theorem apiData_echoes_query_witness :
    str "ACME CO" = trim (str " ACME CO ") ∧
    str "revenue" = toLower (trim (str " Revenue ")) :=
  apiData_echoes_query (parseData rawAcme).records
    (str " ACME CO ") (str " Revenue ")
    (str "ACME CO") (str "ACME") (str "revenue")
    [{ year := 2020, value := 100 }, { year := 2021, value := 150 }] 2 true true
    (by decide)

/-- C1, counterexample to the claim as stated: on the scenario input the
metric list is not `["revenue"]` — `parseData` adds the raw metric name
`"Revenue"` to the metric set without lower-casing (only the per-record
`field` is lower-cased). -/
theorem metrics_not_lowercased :
    (parseData rawAcme).metrics ≠ [str "revenue"] := by
  decide

/-- C1, amended.  On the raw input
`[{Ticker:"ACME", "Company name":"Acme Co", Financials:{Revenue:{"2020":100, "2021":150}}}]`,
`/api/companies` lists `["Acme Co"]`, `/api/metrics` lists `["Revenue"]`
(the raw casing, not `["revenue"]`), and
`/api/data?company=Acme Co&metric=REVENUE` succeeds (HTTP 200) with ticker
`"ACME"` and points `[{year:2020,value:100},{year:2021,value:150}]`. -/
theorem scenario_acme :
    (parseData rawAcme).companies = [str "Acme Co"] ∧
    (parseData rawAcme).metrics = [str "Revenue"] ∧
    apiData (parseData rawAcme).records (str "Acme Co") (str "REVENUE") =
      DataResult.ok (str "Acme Co") (str "ACME") (str "revenue")
        [{ year := 2020, value := 100 }, { year := 2021, value := 150 }] 2 true true ∧
    statusOf (apiData (parseData rawAcme).records (str "Acme Co") (str "REVENUE")) =
      200 := by
  decide

/-- C7, counterexample to the claim as stated: when every attempt of the
chart-data loader `fetchData` fails with `"boom"`, the error surfaced
after the final attempt is exactly `"boom"` — it does not carry the
page-refresh suffix (only `fetchOptions` appends one). -/
theorem fetchData_error_lacks_refresh_suffix :
    (fetchDataRun attBoom 0).2 = Except.error (str "boom") ∧
    (str " Please try refreshing the page.").isSuffixOf (str "boom") = false := by
  constructor
  · simp [fetchDataRun, attBoom, MAX_RETRIES, RETRY_DELAY, str]
  · decide

/-- C7, amended.  Both retry wrappers make at most `MAX_RETRIES = 3` total
attempts (number of attempts = delays slept + 1); the delay slept after
the `i`-th failed attempt (other than the last) is
`RETRY_DELAY * attemptNumber`, linearly increasing; when the final attempt
fails, `fetchOptions` surfaces the final message with the suffix
`" Please try refreshing the page."`, while `fetchData` surfaces the final
message unchanged (or `"Failed to load data. Please try again."` when it
is empty), with no refresh suffix. -/
theorem retry_policy {α : Type} (att : Nat → Except Str α) :
    (fetchOptionsRun att 0).1.length + 1 ≤ MAX_RETRIES ∧
    (fetchDataRun att 0).1.length + 1 ≤ MAX_RETRIES ∧
    (fetchOptionsRun att 0).1 =
      (List.range (fetchOptionsRun att 0).1.length).map
        (fun i => RETRY_DELAY * (i + 1)) ∧
    (fetchDataRun att 0).1 =
      (List.range (fetchDataRun att 0).1.length).map
        (fun i => RETRY_DELAY * (i + 1)) ∧
    (∀ e, (fetchOptionsRun att 0).2 = Except.error e →
      ∃ e0, att (MAX_RETRIES - 1) = Except.error e0 ∧
        e = e0 ++ str " Please try refreshing the page.") ∧
    (∀ e, (fetchDataRun att 0).2 = Except.error e →
      ∃ e0, att (MAX_RETRIES - 1) = Except.error e0 ∧
        e = if e0 = [] then str "Failed to load data. Please try again." else e0) := by
  cases h0 : att 0 with
  | ok a =>
    simp [fetchOptionsRun, fetchDataRun, h0, MAX_RETRIES]
  | error e0 =>
    cases h1 : att 1 with
    | ok a =>
      simp [fetchOptionsRun, fetchDataRun, h0, h1, MAX_RETRIES, RETRY_DELAY,
        List.range_succ]
    | error e1 =>
      cases h2 : att 2 with
      | ok a =>
        simp [fetchOptionsRun, fetchDataRun, h0, h1, h2, MAX_RETRIES, RETRY_DELAY,
          List.range_succ]
      | error e2 =>
        simp [fetchOptionsRun, fetchDataRun, h0, h1, h2, MAX_RETRIES, RETRY_DELAY,
          List.range_succ]

/-- C7, witness: the amended statement applied to the always-failing
oracle; its final surfaced errors match `att 2`. -/
theorem retry_policy_witness :
    (fetchOptionsRun attBoom 0).1.length + 1 ≤ MAX_RETRIES ∧
    (∀ e, (fetchDataRun attBoom 0).2 = Except.error e →
      ∃ e0, attBoom (MAX_RETRIES - 1) = Except.error e0 ∧
        e = if e0 = [] then str "Failed to load data. Please try again." else e0) :=
  ⟨(retry_policy attBoom).1, (retry_policy attBoom).2.2.2.2.2⟩

/-- C8, counterexample to the claim as stated: the chart does not draw 5
value ticks — `yTickVals` has `yTicks + 1 = 6` entries
(`Array.from({length: yTicks + 1}, ...)`). -/
theorem chart_value_ticks_count_not_five :
    (yTickVals ptsDemo).length ≠ 5 := by
  decide

/-- C8, amended.  For every non-empty points list the chart draws
`yTicks + 1 = 6` evenly spaced value ticks running from the minimum to the
maximum value (consecutive ticks differ by `(max - min) / 5`), and each
tick label's suffix follows the magnitude thresholds: `B` exactly when
`10^9 ≤ |v|`, `M` exactly when `10^6 ≤ |v| < 10^9`, `K` exactly when
`10^3 ≤ |v| < 10^6`, and no suffix (plain integer rendering) exactly when
`|v| < 10^3`. -/
theorem chart_value_ticks (pts : List Pt) (_hne : pts ≠ []) :
    (yTickVals pts).length = yTicks + 1 ∧
    (yTickVals pts)[0]? = some (minVal pts) ∧
    (yTickVals pts)[yTicks]? = some (maxVal pts) ∧
    List.Chain' (fun a b => b - a = (maxVal pts - minVal pts) / (yTicks : Rat))
      (yTickVals pts) ∧
    (∀ v : Rat,
      ((formatNumber v).2 = str "B" ↔ 1000000000 ≤ |v|) ∧
      ((formatNumber v).2 = str "M" ↔ 1000000 ≤ |v| ∧ |v| < 1000000000) ∧
      ((formatNumber v).2 = str "K" ↔ 1000 ≤ |v| ∧ |v| < 1000000) ∧
      ((formatNumber v).2 = str "" ↔ |v| < 1000)) := by
  have hBM : str "B" ≠ str "M" := by decide
  have hBK : str "B" ≠ str "K" := by decide
  have hBE : str "B" ≠ str "" := by decide
  have hMK : str "M" ≠ str "K" := by decide
  have hME : str "M" ≠ str "" := by decide
  have hKE : str "K" ≠ str "" := by decide
  refine ⟨?_, ?_, ?_, ?_, ?_⟩
  · simp [yTickVals]
  · rw [yTickVals, List.getElem?_map,
      List.getElem?_range (by norm_num [yTicks] : 0 < yTicks + 1)]
    simp
  · rw [yTickVals, List.getElem?_map,
      List.getElem?_range (by norm_num : yTicks < yTicks + 1)]
    simp only [Option.map_some, Option.some.injEq, yTicks]
    push_cast
    field_simp
    ring
  · rw [yTickVals, List.chain'_map, yTicks]
    refine (List.chain'_range_succ _ 5).mpr ?_
    intro m hm
    push_cast
    ring
  · intro v
    simp only [formatNumber, ge_iff_le]
    split_ifs with h1 h2 h3
    · refine ⟨iff_of_true rfl h1, iff_of_false hBM ?_,
        iff_of_false hBK ?_, iff_of_false hBE ?_⟩
      · rintro ⟨-, hlt⟩; linarith
      · rintro ⟨-, hlt⟩; linarith
      · intro hlt; linarith
    · refine ⟨iff_of_false hBM.symm h1, iff_of_true rfl ⟨h2, not_le.mp h1⟩,
        iff_of_false hMK ?_, iff_of_false hME ?_⟩
      · rintro ⟨-, hlt⟩; linarith
      · intro hlt; linarith
    · refine ⟨iff_of_false hBK.symm h1, iff_of_false hMK.symm ?_,
        iff_of_true rfl ⟨h3, not_le.mp h2⟩, iff_of_false hKE ?_⟩
      · rintro ⟨hge, -⟩; exact h2 hge
      · intro hlt; linarith
    · refine ⟨iff_of_false hBE.symm h1, iff_of_false hME.symm ?_,
        iff_of_false hKE.symm ?_, iff_of_true rfl (not_le.mp h3)⟩
      · rintro ⟨hge, -⟩; exact h2 hge
      · rintro ⟨hge, -⟩; exact h3 hge

/-- C8, witness: the amended statement applied to the two-point series. -/
theorem chart_value_ticks_witness :
    (yTickVals ptsDemo).length = yTicks + 1 :=
  (chart_value_ticks ptsDemo (by decide)).1

/-- C9.  The chart's horizontal and vertical scale denominators are
guarded (`maxYear - minYear || 1`, `maxVal - minVal || 1`) and therefore
never zero — in particular for series whose years are all equal or whose
values are all equal — and for a single-point series the polyline
degenerates to the single scaled point `(margin.left, height -
margin.bottom)` = `(70, 380)` with exactly one matching marker. -/
theorem chart_degenerate_safe :
    (∀ pts : List Pt, xDenom pts ≠ 0 ∧ yDenom pts ≠ 0) ∧
    (∀ p : Pt, pathCmds [p] = [((70 : Rat), (380 : Rat))] ∧
      markers [p] = pathCmds [p] ∧ (pathCmds [p]).length = 1) := by
  constructor
  · intro pts
    constructor
    · by_cases hd : maxYear pts - minYear pts = 0
      · simp [xDenom, hd]
      · simp [xDenom, hd]
    · by_cases hd : maxVal pts - minVal pts = 0
      · simp [yDenom, hd]
      · simp [yDenom, hd]
  · intro p
    have hx : xScale [p] p.year = 70 := by
      simp [xScale, xDenom, minYear, maxYear, chartWidth, marginLeft, marginRight]
    have hy : yScale [p] p.value = 380 := by
      simp [yScale, yDenom, minVal, maxVal, chartHeight, marginTop, marginBottom]
      norm_num
    refine ⟨?_, rfl, rfl⟩
    simp [pathCmds, hx, hy]

/-- C9, witness: the degenerate-series facts at a concrete single point. -/
theorem chart_degenerate_safe_witness :
    xDenom [{ year := 2020, value := 5 }] ≠ 0 ∧
    pathCmds [{ year := 2020, value := 5 }] = [((70 : Rat), (380 : Rat))] :=
  ⟨(chart_degenerate_safe.1 [{ year := 2020, value := 5 }]).1,
   (chart_degenerate_safe.2 { year := 2020, value := 5 }).1⟩

end Dashboard
